import Mathlib

/-!
Shallow embedding of the chronic-circuit reporting pipeline
(`utils.py`, `analyze_data.py`, `monthly_builder.py`) and proofs about it.

Strings are modelled as Lean `String` / `List Char`.  Python `None` for an
optional string argument is modelled by `Option String`.  Numeric spreadsheet
cells that may be `NaN` are modelled by `Option Int` / `Option Rat` (pandas
sums skip `NaN`, i.e. treat it as 0).  Regex character classes `[A-Za-z]` and
`\d` are modelled by `Char.isAlpha` / `Char.isDigit` (ASCII; the circuit
identifiers in this repository are ASCII).
-/

namespace Reporting

/-- Whitespace characters removed by Python `str.strip()` (the Unicode
whitespace set; the code points Python treats as whitespace). -/
def isPySpace (c : Char) : Bool :=
  c == ' ' || c == '\t' || c == '\n' || c == '\r' ||
  c == '\u000B' || c == '\u000C' ||
  c == '\u001C' || c == '\u001D' || c == '\u001E' || c == '\u001F' ||
  c == '\u0085' || c == '\u00A0' || c == '\u1680' ||
  ('\u2000' ≤ c && c ≤ '\u200A') ||
  c == '\u2028' || c == '\u2029' || c == '\u202F' || c == '\u205F' ||
  c == '\u3000'

def pyStrip (l : List Char) : List Char :=
  ((l.dropWhile isPySpace).reverse.dropWhile isPySpace).reverse

/-- Python `s.split(d, 1)[0]` when `d` occurs in `s`, and `s` itself when it
does not: the prefix of `s` before the first occurrence of `d`. -/
def splitFirst (d : Char) (l : List Char) : List Char :=
  l.takeWhile (fun c => !(c == d))

/-- Core of the regex test `re.match(r".*\d{3,}-[A-Za-z]{1,}$", s)` with the
match required to end at the very end of the string: the string ends with one
or more ASCII letters, immediately preceded by a hyphen, immediately preceded
by at least three digits, and the remaining prefix (matched by `.*`) contains
no newline. -/
def matchesCore (l : List Char) : Bool :=
  let rev := l.reverse
  let ls := rev.takeWhile Char.isAlpha
  let r1 := rev.dropWhile Char.isAlpha
  let r2 := r1.drop 1
  !ls.isEmpty && r1.head? == some '-' &&
    decide (3 ≤ (r2.takeWhile Char.isDigit).length) &&
    !(r2.drop 3).contains '\n'

/-- Full regex test `re.match(r".*\d{3,}-[A-Za-z]{1,}$", s)`: Python `$` also
matches just before a single newline at the end of the string. -/
def matchesPat (l : List Char) : Bool :=
  matchesCore l || (if l.getLast? == some '\n' then matchesCore l.dropLast else false)

/-- Step 2 of `utils.canonical_id`: when the regex matches, trim at the
first hyphen (`s.split("-", 1)[0]`). -/
def regexTrim (l : List Char) : List Char :=
  if matchesPat l then splitFirst '-' l else l

/-- Body of `utils.canonical_id` on a non-empty string: strip, then split at
the first `_`, `/` and space in that order, then trim a digits-hyphen-letters
suffix at the first hyphen. -/
def canonCore (l : List Char) : List Char :=
  regexTrim (splitFirst ' ' (splitFirst '/' (splitFirst '_' (pyStrip l))))

/-- `utils.canonical_id`.  `none` models Python `None` (returns `""`); the
empty string is falsy in Python and is returned unchanged. -/
def canonicalId : Option String → String
  | none => ""
  | some raw => if raw = "" then "" else String.mk (canonCore raw.toList)

/-- Convenience wrapper of `canonicalId` for string inputs. -/
def canonicalIdStr (s : String) : String :=
  canonicalId (some s)

example : canonicalIdStr "123-A_456" = "123" := by decide
example : canonicalIdStr "VID-1583" = "VID-1583" := by decide
example : canonicalId none = "" := by decide
example : canonicalIdStr "091NOID1143035717419_889599" = "091NOID1143035717419" := by decide
example : canonicalIdStr "500335805-CH1/EXTRA" = "500335805-CH1" := by decide
example : canonicalIdStr "ABC DEF" = "ABC" := by decide
example : canonicalIdStr "CID_TEST_1" = "CID" := by decide
example : canonicalIdStr "a\t b" = "a\t" := by decide
example : canonicalIdStr "a\t" = "a" := by decide

/-- Baseline statuses stored by `load_baseline_status`
(`'Consistent' | 'Inconsistent' | 'Media Chronic' | 'pending_promotion'`). -/
inductive BStatus
  | consistent
  | inconsistent
  | mediaChronic
  | pendingPromotion
deriving DecidableEq, Repr

/-- Buckets a roster circuit is appended to by `process_chronic_logic`
(`chronic_consistent`, `chronic_inconsistent`, `media_chronics_hybrid`). -/
inductive CStatus
  | consistent
  | inconsistent
  | mediaChronic
deriving DecidableEq, Repr

/-- Python dict lookup `m.get(k)` on an insertion-ordered association list. -/
def dlookup (k : String) : List (String × BStatus) → Option BStatus
  | [] => none
  | (a, v) :: t => if k = a then some v else dlookup k t

/-- Python dict assignment `m[k] = v` on an insertion-ordered association
list: overwrite in place when the key exists, append otherwise. -/
def dinsert (m : List (String × BStatus)) (k : String) (v : BStatus) :
    List (String × BStatus) :=
  if (dlookup k m).isSome then
    m.map (fun p => if p.1 = k then (k, v) else p)
  else
    m ++ [(k, v)]

/-- Python `set.add` on an insertion-ordered list model of a set. -/
def sinsert (s : List String) (k : String) : List String :=
  if k ∈ s then s else s ++ [k]

/-- `CONSISTENT_THRESHOLD = int(os.getenv("MR_CONSISTENT_THRESHOLD", 6))`:
the environment override when set, else the default 6. -/
def consistentThreshold (env : Option Int) : Int :=
  env.getD 6

/-- Status branch of `process_chronic_logic` (monthly_builder.py lines
350-379): baseline statuses Consistent/Inconsistent/Media Chronic are frozen;
`pending_promotion` and circuits absent from the baseline get the ticket
threshold rule `rolling_tickets >= CONSISTENT_THRESHOLD`. -/
def classifyStatus (baseline : List (String × BStatus)) (threshold : Int)
    (canonical : String) (rollingTickets : Int) : CStatus :=
  match dlookup canonical baseline with
  | some BStatus.pendingPromotion =>
      if threshold ≤ rollingTickets then CStatus.consistent else CStatus.inconsistent
  | some BStatus.consistent => CStatus.consistent
  | some BStatus.inconsistent => CStatus.inconsistent
  | some BStatus.mediaChronic => CStatus.mediaChronic
  | none =>
      if threshold ≤ rollingTickets then CStatus.consistent else CStatus.inconsistent

/-- Row of a tabular export: raw `Config Item Name`, the value of the
derived `canonical_id` column (consulted only when the frame has that
column), and the `Distinct count of Inc Nbr` cell (`none` models `NaN`). -/
structure TRow where
  configItemName : String
  canonicalCol : String
  distinctCount : Option Int
deriving DecidableEq, Repr

/-- A pandas DataFrame reduced to what `get_rolling_ticket_total` consults:
its column-name list and its rows. -/
structure Frame where
  cols : List String
  rows : List TRow
deriving Repr

/-- `analyze_data.get_rolling_ticket_total` for frames that contain the
`Distinct count of Inc Nbr` column (every frame built by this pipeline does;
the pre-v0.1.5 keyword-scan fallback for frames lacking that column is outside
the model): filter by the `canonical_id` column when the frame has one, else
by raw `Config Item Name`, then sum the ticket counts with `NaN` as 0. -/
def getRollingTicketTotal (canonical : String) (f : Frame) : Int :=
  let circuitData :=
    if f.cols.contains "canonical_id" then
      f.rows.filter (fun r => r.canonicalCol == canonical)
    else
      f.rows.filter (fun r => r.configItemName == canonical)
  ((circuitData.map (fun r => r.distinctCount.getD 0)).sum)

/-- Column names of `pd.merge(left, right, on=key, how='outer')`: the key is
kept once, and any other column present in both frames is renamed with the
`_x` / `_y` suffix. -/
def mergeColumns (leftCols rightCols : List String) (key : String) : List String :=
  leftCols.map (fun c => if !(c == key) && rightCols.contains c then c ++ "_x" else c)
  ++ (rightCols.filter (fun c => !(c == key))).map
      (fun c => if leftCols.contains c then c ++ "_y" else c)

/-- Columns of the impacts export after `load_crosstab_data` (which appends a
`canonical_id` column, monthly_builder.py line 139). -/
def impactsCols : List String :=
  ["Config Item Name", "Inc Resolved At (Month / Year)",
   "Distinct count of Inc Nbr", "canonical_id"]

/-- Columns of the counts export after `load_crosstab_data` (which appends a
`canonical_id` column, monthly_builder.py line 140). -/
def countsCols : List String :=
  ["Config Item Name", "COUNTD Months", "Outage Duration",
   "Incident Network-facing Impacted CI Type", "canonical_id"]

/-- Columns of `merged_df` in `process_chronic_logic` (line 286): the outer
merge of the two loaded exports on `Config Item Name`. -/
def mergedCols : List String :=
  mergeColumns impactsCols countsCols "Config Item Name"

example : mergedCols.contains "canonical_id" = false := by decide
example : mergedCols.contains "canonical_id_x" = true := by decide
example : mergedCols.contains "Distinct count of Inc Nbr" = true := by decide


/-- Row constructor mirroring monthly_builder.py line 139: the
`canonical_id` column is `canonical_id(Config Item Name)`. -/
def mkRow (name : String) (cnt : Option Int) : TRow :=
  ⟨name, canonicalIdStr name, cnt⟩

/-- Impact rows of the spec example: three raw variants of the
`091NOID1143035717419` circuit with incident counts 2, 3 and 1. -/
def c4ImpactRows : List TRow :=
  [mkRow "091NOID1143035717419_889599" (some 2),
   mkRow "091NOID1143035717419_889621" (some 3),
   mkRow "091NOID1143035717419_1040578" (some 1)]

/-- `merged_df` for those impact rows and an empty counts export: the outer
merge keeps the impact rows and, because both loaded frames carry a
`canonical_id` column, the merged frame has only `canonical_id_x` /
`canonical_id_y`. -/
def c4MergedFrame : Frame :=
  ⟨mergedCols, c4ImpactRows⟩

/-- C1: a circuit whose canonical ID is in the baseline with status
Consistent, Inconsistent or Media Chronic is assigned exactly that status by
`process_chronic_logic`, for every rolling ticket total (in particular a
baseline-Consistent circuit with 0 tickets stays Consistent): the ticket
total never affects a frozen status. -/
theorem baseline_frozen_status_preserved
    (baseline : List (String × BStatus)) (threshold : Int) (canonical : String) :
    (dlookup canonical baseline = some BStatus.consistent →
      ∀ rollingTickets : Int,
        classifyStatus baseline threshold canonical rollingTickets = CStatus.consistent) ∧
    (dlookup canonical baseline = some BStatus.inconsistent →
      ∀ rollingTickets : Int,
        classifyStatus baseline threshold canonical rollingTickets = CStatus.inconsistent) ∧
    (dlookup canonical baseline = some BStatus.mediaChronic →
      ∀ rollingTickets : Int,
        classifyStatus baseline threshold canonical rollingTickets = CStatus.mediaChronic) := by
  refine ⟨?_, ?_, ?_⟩ <;> intro h t <;> simp [classifyStatus, h]

/-- Witness for C1: a legacy Consistent circuit with 0 tickets this period is
still classified Consistent. -/
theorem baseline_frozen_status_preserved_witness :
    classifyStatus [("SR216187", BStatus.consistent)] 6 "SR216187" 0 = CStatus.consistent :=
  (baseline_frozen_status_preserved [("SR216187", BStatus.consistent)] 6 "SR216187").1
    (by decide) 0

/-- C2: a circuit whose canonical ID is absent from the baseline, or has
baseline status pending_promotion, is classified by the threshold rule:
Consistent iff its rolling ticket total is at least `CONSISTENT_THRESHOLD`
(default 6, overridden by the `MR_CONSISTENT_THRESHOLD` environment
variable), else Inconsistent. -/
theorem threshold_rule_for_new_and_pending
    (baseline : List (String × BStatus)) (env : Option Int) (canonical : String)
    (t : Int)
    (h : dlookup canonical baseline = none ∨
         dlookup canonical baseline = some BStatus.pendingPromotion) :
    consistentThreshold none = 6 ∧
    classifyStatus baseline (consistentThreshold env) canonical t =
      (if consistentThreshold env ≤ t then CStatus.consistent else CStatus.inconsistent) := by
  rcases h with h | h <;> exact ⟨rfl, by simp [classifyStatus, h]⟩

/-- Witness for C2: with the default threshold 6, a rolling total of 5
classifies Inconsistent and a rolling total of 6 classifies Consistent, both
for a circuit absent from the baseline and for one pending promotion. -/
theorem threshold_rule_for_new_and_pending_witness :
    classifyStatus [] (consistentThreshold none) "443463817" 5 = CStatus.inconsistent ∧
    classifyStatus [("N9675474L", BStatus.pendingPromotion)] (consistentThreshold none)
      "N9675474L" 6 = CStatus.consistent :=
  ⟨((threshold_rule_for_new_and_pending [] none "443463817" 5 (Or.inl rfl)).2).trans
      (by decide),
   ((threshold_rule_for_new_and_pending [("N9675474L", BStatus.pendingPromotion)] none
      "N9675474L" 6 (Or.inr (by decide))).2).trans (by decide)⟩

/-- C4 (code bug): in the wired pipeline the merged frame has lost its
`canonical_id` column to the merge suffixes `_x`/`_y`, so
`get_rolling_ticket_total` falls back to matching raw `Config Item Name`
against the canonical ID and returns 0 for the spec example, while the sum of
the counts of the raw rows normalizing to that canonical ID is 6 — the value
the function does return when the frame still has its `canonical_id` column,
as in the repository's own unit test `test_091noid_aggregation`. -/
theorem rolling_total_canonical_column_lost :
    mergedCols.contains "canonical_id" = false ∧
    getRollingTicketTotal "091NOID1143035717419" c4MergedFrame = 0 ∧
    ((c4ImpactRows.filter
        (fun r => canonicalIdStr r.configItemName == "091NOID1143035717419")).map
        (fun r => r.distinctCount.getD 0)).sum = 6 ∧
    getRollingTicketTotal "091NOID1143035717419" ⟨impactsCols, c4ImpactRows⟩ = 6 := by
  decide


/-- Python `str.startswith(p)`, computed on the character list (semantically
the same as `String.startsWith`, but evaluable by the kernel). -/
def startsWithPy (s p : String) : Bool :=
  p.toList.isPrefixOf s.toList

/-- Row of the full merged dataset as consulted by `calculate_metrics`:
raw `Config Item Name`, the `Outage Duration` cell (minutes; `none` models
`NaN`) and the `Distinct count of Inc Nbr` cell (`none` models `NaN`). -/
structure MRow where
  configItemName : String
  outageDuration : Option ℚ
  distinctCount : Option ℚ
deriving DecidableEq

/-- `utils.filter_test_circuits`: drop rows whose circuit name starts with
`CID_TEST`. -/
def filterTestCircuits (rows : List MRow) : List MRow :=
  rows.filter (fun r => !(startsWithPy r.configItemName "CID_TEST"))

/-- Group keys of `df.groupby('Config Item Name')`: the distinct circuit
names (first-occurrence order; the key order never matters below because
rankings re-sort by value). -/
def circuitKeys (rows : List MRow) : List String :=
  rows.foldl (fun acc r => if r.configItemName ∈ acc then acc else acc ++ [r.configItemName]) []

/-- `df.groupby('Config Item Name')[col].sum()` for one circuit: the sum of
the column over the circuit's rows, `NaN` skipped (= 0). -/
def colSum (f : MRow → Option ℚ) (rows : List MRow) (c : String) : ℚ :=
  ((rows.filter (fun r => r.configItemName == c)).map (fun r => (f r).getD 0)).sum

/-- Summed `Outage Duration` (minutes) of a circuit. -/
def outageSum (rows : List MRow) (c : String) : ℚ :=
  colSum (fun r => r.outageDuration) rows c

/-- Summed `Distinct count of Inc Nbr` of a circuit. -/
def ticketSum (rows : List MRow) (c : String) : ℚ :=
  colSum (fun r => r.distinctCount) rows c

/-- `potential_hours = days_in_period * 24` with `days_in_period = 90`. -/
def potentialHours : ℚ := 90 * 24

/-- Availability of a circuit (monthly_builder.py lines 648-656): the summed
`Outage Duration` is treated as minutes and converted once to hours (÷60),
then `availability = 100 × (1 − outage_hours / potential_hours)`. -/
def availPct (rows : List MRow) (c : String) : ℚ :=
  100 * (1 - (outageSum rows c / 60) / potentialHours)

/-- Insertion step of a stable insertion sort (models
`Series.sort_values(ascending=True)`). -/
def insertSorted (le : String → String → Bool) (x : String) :
    List String → List String
  | [] => [x]
  | y :: ys => if le x y then x :: y :: ys else y :: insertSorted le x ys

/-- Stable insertion sort by a boolean comparison. -/
def isortLe (le : String → String → Bool) (l : List String) : List String :=
  l.foldr (insertSorted le) []

/-- Sort circuit names ascending by a rational value. -/
def isortBy (v : String → ℚ) (l : List String) : List String :=
  isortLe (fun a b => decide (v a ≤ v b)) l

/-- Circuits reported invalid by the availability validation warning
(monthly_builder.py line 659): computed availability below 0 or above 100. -/
def invalidAvailability (rows : List MRow) : List String :=
  let ar := filterTestCircuits rows
  (circuitKeys ar).filter
    (fun c => decide (availPct ar c < 0) || decide (100 < availPct ar c))

/-- `metrics['bottom5_availability']` (lines 666-669): keep only circuits
with availability in [0, 100], sort ascending, take the worst five. -/
def bottom5Availability (rows : List MRow) : List (String × ℚ) :=
  let ar := filterTestCircuits rows
  let valid := (circuitKeys ar).filter
    (fun c => decide (0 ≤ availPct ar c) && decide (availPct ar c ≤ 100))
  ((isortBy (availPct ar) valid).take 5).map (fun c => (c, availPct ar c))

/-- `operating_hours = 24 * 90` (monthly_builder.py line 673). -/
def operatingHours : ℚ := 24 * 90

/-- MTBF in days of a circuit (lines 679-680): `mtbf_hours =
operating_hours / tickets`, `mtbf_days = mtbf_hours / 24`. -/
def mtbfDays (rows : List MRow) (c : String) : ℚ :=
  (operatingHours / ticketSum rows c) / 24

/-- `metrics['bottom5_mtbf']` (lines 675-684): circuits with a positive
summed incident count, sorted by MTBF ascending, worst five. -/
def bottom5Mtbf (rows : List MRow) : List (String × ℚ) :=
  let ar := filterTestCircuits rows
  let keys := (circuitKeys ar).filter (fun c => decide (0 < ticketSum ar c))
  ((isortBy (mtbfDays ar) keys).take 5).map (fun c => (c, mtbfDays ar c))

theorem mem_insertSorted (le : String → String → Bool) (x a : String)
    (l : List String) : a ∈ insertSorted le x l ↔ a = x ∨ a ∈ l := by
  induction l with
  | nil => simp [insertSorted]
  | cons y ys ih =>
    by_cases h : le x y = true
    · simp [insertSorted, h]
    · simp only [insertSorted, h]
      simp [ih]
      tauto

theorem mem_isortLe (le : String → String → Bool) (a : String)
    (l : List String) : a ∈ isortLe le l ↔ a ∈ l := by
  induction l with
  | nil => simp [isortLe]
  | cons y ys ih =>
    simp only [isortLe, List.foldr_cons]
    rw [mem_insertSorted]
    simp only [isortLe] at ih
    rw [ih]
    simp


/-- C5: availability is 100 × (1 − outage_hours / 2160) with outage_hours the
summed `Outage Duration` in minutes divided once by 60; any circuit whose
availability falls outside [0, 100] is in the logged invalid set (when it is
a circuit of the dataset at all) and is excluded from the bottom-5
availability ranking. -/
theorem availability_minutes_once_and_range_exclusion (rows : List MRow) (c : String) :
    availPct (filterTestCircuits rows) c =
      100 * (1 - (outageSum (filterTestCircuits rows) c / 60) / (90 * 24)) ∧
    ((availPct (filterTestCircuits rows) c < 0 ∨
        100 < availPct (filterTestCircuits rows) c) →
      (c ∈ invalidAvailability rows ↔ c ∈ circuitKeys (filterTestCircuits rows)) ∧
      c ∉ (bottom5Availability rows).map Prod.fst) := by
  refine ⟨rfl, fun h => ⟨?_, ?_⟩⟩
  · unfold invalidAvailability
    rw [List.mem_filter]
    rcases h with h | h <;> simp [h]
  · intro hmem
    unfold bottom5Availability at hmem
    simp only [List.mem_map] at hmem
    obtain ⟨d, ⟨e, he, rfl⟩, hdc⟩ := hmem
    have he2 : e ∈ isortBy (availPct (filterTestCircuits rows))
        ((circuitKeys (filterTestCircuits rows)).filter
          (fun c => decide (0 ≤ availPct (filterTestCircuits rows) c) &&
            decide (availPct (filterTestCircuits rows) c ≤ 100))) :=
      List.take_subset 5 _ he
    rw [isortBy, mem_isortLe, List.mem_filter] at he2
    have hbounds := he2.2
    simp only [Bool.and_eq_true, decide_eq_true_eq] at hbounds
    have hec : e = c := hdc
    rw [hec] at hbounds
    rcases h with h | h
    · exact absurd hbounds.1 (not_le.mpr h)
    · exact absurd hbounds.2 (not_le.mpr h)

/-- Rows witnessing C5: one healthy circuit and one circuit whose outage sum
(200000 minutes) makes the computed availability negative. -/
def c5Rows : List MRow :=
  [⟨"W1E32092", some 300, some 2⟩, ⟨"BADCIRCUIT", some 200000, some 1⟩]

/-- Witness for C5: the out-of-range circuit is logged invalid and excluded
from the bottom-5 ranking. -/
theorem availability_minutes_once_and_range_exclusion_witness :
    availPct (filterTestCircuits c5Rows) "BADCIRCUIT" < 0 ∧
    ("BADCIRCUIT" ∈ invalidAvailability c5Rows ∧
      "BADCIRCUIT" ∉ (bottom5Availability c5Rows).map Prod.fst) :=
  have hfil : filterTestCircuits c5Rows = c5Rows := by decide
  have hsum : outageSum c5Rows "BADCIRCUIT" = 200000 := by
    have hl : (c5Rows.filter (fun r => r.configItemName == "BADCIRCUIT")).map
        (fun r => r.outageDuration.getD 0) = [(200000 : ℚ)] := by decide
    simp only [outageSum, colSum, hl, List.sum_cons, List.sum_nil, add_zero]
  have hneg : availPct (filterTestCircuits c5Rows) "BADCIRCUIT" < 0 := by
    rw [hfil]
    simp only [availPct, potentialHours, hsum]
    norm_num
  have hkey : "BADCIRCUIT" ∈ circuitKeys (filterTestCircuits c5Rows) := by
    rw [hfil]
    simp [circuitKeys, c5Rows]
  ⟨hneg,
    ((availability_minutes_once_and_range_exclusion c5Rows "BADCIRCUIT").2
        (Or.inl hneg)).1.mpr hkey,
    ((availability_minutes_once_and_range_exclusion c5Rows "BADCIRCUIT").2
        (Or.inl hneg)).2⟩

/-- C9 (amended): the reported MTBF in days is `((90 × 24) / incidents) / 24
= 90 / incidents` for circuits with a positive incident count, and circuits
without a positive incident count are excluded from the MTBF ranking. -/
theorem mtbf_days_formula_and_zero_exclusion (rows : List MRow) (c : String) :
    (0 < ticketSum (filterTestCircuits rows) c →
      mtbfDays (filterTestCircuits rows) c =
        90 / ticketSum (filterTestCircuits rows) c) ∧
    (ticketSum (filterTestCircuits rows) c ≤ 0 →
      c ∉ (bottom5Mtbf rows).map Prod.fst) := by
  constructor
  · intro _
    unfold mtbfDays operatingHours
    rw [div_div, mul_comm (ticketSum (filterTestCircuits rows) c) 24, ← div_div]
    norm_num
  · intro ht hmem
    unfold bottom5Mtbf at hmem
    simp only [List.mem_map] at hmem
    obtain ⟨d, ⟨e, he, rfl⟩, hdc⟩ := hmem
    have he2 := List.take_subset 5 _ he
    rw [isortBy, mem_isortLe, List.mem_filter] at he2
    have hpos := he2.2
    simp only [decide_eq_true_eq] at hpos
    have hec : e = c := hdc
    rw [hec] at hpos
    exact absurd hpos (not_lt.mpr ht)

/-- Rows for the C9 counterexample and witness: one circuit with exactly one
incident, and one circuit with no incidents. -/
def c9Rows : List MRow :=
  [⟨"LD017936", some 0, some 1⟩, ⟨"NOINCIDENT", some 10, some 0⟩]

/-- Counterexample to C9 as stated: with one incident the reported MTBF in
days is 90, not (90 days × 24 hours) / 1 = 2160. -/
theorem mtbf_days_is_not_operating_hours_over_count :
    ticketSum (filterTestCircuits c9Rows) "LD017936" = 1 ∧
    mtbfDays (filterTestCircuits c9Rows) "LD017936" = 90 ∧
    (90 : ℚ) ≠ 90 * 24 / 1 := by
  have hfil : filterTestCircuits c9Rows = c9Rows := by decide
  have hsum : ticketSum c9Rows "LD017936" = 1 := by
    have hl : (c9Rows.filter (fun r => r.configItemName == "LD017936")).map
        (fun r => r.distinctCount.getD 0) = [(1 : ℚ)] := by decide
    simp only [ticketSum, colSum, hl, List.sum_cons, List.sum_nil, add_zero]
  refine ⟨by rw [hfil]; exact hsum, ?_, by norm_num⟩
  rw [hfil]
  simp only [mtbfDays, operatingHours, hsum]
  norm_num

/-- Witness for C9 (amended): the one-incident circuit gets 90 / 1 days and
the zero-incident circuit is excluded from the ranking. -/
theorem mtbf_days_formula_and_zero_exclusion_witness :
    (0 < ticketSum (filterTestCircuits c9Rows) "LD017936" ∧
      mtbfDays (filterTestCircuits c9Rows) "LD017936" =
        90 / ticketSum (filterTestCircuits c9Rows) "LD017936") ∧
    (ticketSum (filterTestCircuits c9Rows) "NOINCIDENT" ≤ 0 ∧
      "NOINCIDENT" ∉ (bottom5Mtbf c9Rows).map Prod.fst) :=
  have hfil : filterTestCircuits c9Rows = c9Rows := by decide
  have h1 : 0 < ticketSum (filterTestCircuits c9Rows) "LD017936" := by
    rw [hfil]
    have hl : (c9Rows.filter (fun r => r.configItemName == "LD017936")).map
        (fun r => r.distinctCount.getD 0) = [(1 : ℚ)] := by decide
    simp only [ticketSum, colSum, hl, List.sum_cons, List.sum_nil, add_zero]
    norm_num
  have h2 : ticketSum (filterTestCircuits c9Rows) "NOINCIDENT" ≤ 0 := by
    rw [hfil]
    have hl : (c9Rows.filter (fun r => r.configItemName == "NOINCIDENT")).map
        (fun r => r.distinctCount.getD 0) = [(0 : ℚ)] := by decide
    simp only [ticketSum, colSum, hl, List.sum_cons, List.sum_nil, add_zero]
    exact le_refl 0
  ⟨⟨h1, (mtbf_days_formula_and_zero_exclusion c9Rows "LD017936").1 h1⟩,
   ⟨h2, (mtbf_days_formula_and_zero_exclusion c9Rows "NOINCIDENT").2 h2⟩⟩


/-- The metric entries consulted by `utils.validate_calculations`:
`metrics['bottom5_availability']` and `metrics['bottom5_mtbf']` as
circuit-to-value lists (an absent key behaves like an empty list). -/
structure Metrics where
  availEntries : List (String × ℚ)
  mtbfEntries : List (String × ℚ)
deriving DecidableEq

/-- `utils.validate_calculations` (utils.py lines 172-195): raise `ValueError`
(modelled as `Except.error`) on the first bottom-5 availability outside
0-100% or the first negative bottom-5 MTBF, else return normally. -/
def validateCalculations (m : Metrics) : Except String Unit :=
  match m.availEntries.find? (fun p => decide (p.2 < 0) || decide (100 < p.2)) with
  | some p => Except.error ("Invalid availability for " ++ p.1)
  | none =>
    match m.mtbfEntries.find? (fun p => decide (p.2 < 0)) with
    | some p => Except.error ("Invalid MTBF for " ++ p.1)
    | none => Except.ok ()

/-- Final validation step of `calculate_metrics` (monthly_builder.py lines
759-766): `validate_calculations` is called inside `try/except ValueError`,
the error is logged, and the metrics are returned regardless. -/
def calculateMetricsValidationStep (m : Metrics) : Metrics :=
  match validateCalculations m with
  | Except.error _ => m
  | Except.ok _ => m

/-- C6 (amended): the validator errors exactly when some bottom-5
availability is strictly outside [0, 100] or some bottom-5 MTBF is negative
(boundary values 0 and 100 are accepted) — but `calculate_metrics` catches
the error and still returns the metrics, so the raise is not a hard stop. -/
theorem validation_error_characterized_but_caught (m : Metrics) :
    (validateCalculations m = Except.ok () ↔
      ((∀ p ∈ m.availEntries, 0 ≤ p.2 ∧ p.2 ≤ 100) ∧
       (∀ p ∈ m.mtbfEntries, 0 ≤ p.2))) ∧
    calculateMetricsValidationStep m = m := by
  constructor
  · unfold validateCalculations
    cases ha : m.availEntries.find? (fun p => decide (p.2 < 0) || decide (100 < p.2)) with
    | some p =>
      simp only [reduceCtorEq, false_iff]
      intro hcon
      have hp := List.find?_some ha
      have hpm := List.mem_of_find?_eq_some ha
      simp only [Bool.or_eq_true, decide_eq_true_eq] at hp
      have := hcon.1 p hpm
      rcases hp with hp | hp
      · exact absurd this.1 (not_le.mpr hp)
      · exact absurd this.2 (not_le.mpr hp)
    | none =>
      have hha := List.find?_eq_none.mp ha
      cases hb : m.mtbfEntries.find? (fun p => decide (p.2 < 0)) with
      | some p =>
        simp only [reduceCtorEq, false_iff]
        intro hcon
        have hp := List.find?_some hb
        have hpm := List.mem_of_find?_eq_some hb
        simp only [decide_eq_true_eq] at hp
        exact absurd (hcon.2 p hpm) (not_le.mpr hp)
      | none =>
        have hhb := List.find?_eq_none.mp hb
        simp only [true_iff]
        constructor
        · intro p hp
          have := hha p hp
          simp only [Bool.or_eq_true, decide_eq_true_eq, not_or] at this
          exact ⟨le_of_not_lt this.1, le_of_not_lt this.2⟩
        · intro p hp
          have := hhb p hp
          simp only [decide_eq_true_eq] at this
          exact le_of_not_lt this
  · unfold calculateMetricsValidationStep
    cases validateCalculations m <;> rfl

/-- Metrics with an impossible availability of 150%. -/
def c6Metrics : Metrics :=
  ⟨[("W1E32092", 150)], []⟩

/-- Counterexample to C6 as stated: for an availability of 150% the validator
does raise, but the metrics calculation catches the error and still emits the
metrics — the raise does not abort metric emission. -/
theorem validation_error_does_not_abort_emission :
    (validateCalculations c6Metrics).isOk = false ∧
    calculateMetricsValidationStep c6Metrics = c6Metrics := by
  constructor
  · decide
  · rfl

example : validateCalculations ⟨[("A", 100), ("B", 0)], [("C", 0)]⟩ = Except.ok () := by
  rfl

/-- Witness for C6 (amended): in-range metrics validate cleanly, and the
out-of-range metrics are still returned by the validation step. -/
theorem validation_error_characterized_but_caught_witness :
    validateCalculations ⟨[("PTH TOK EPL 90030025", 97)], [("SR215576", 45)]⟩ =
      Except.ok () ∧
    calculateMetricsValidationStep c6Metrics = c6Metrics :=
  ⟨(validation_error_characterized_but_caught
      ⟨[("PTH TOK EPL 90030025", 97)], [("SR215576", 45)]⟩).1.mpr
      ⟨by decide, by decide⟩,
   (validation_error_characterized_but_caught c6Metrics).2⟩


/-- Contents of `docs/frozen_legacy_list.json` as read by
`load_baseline_status` (monthly_builder.py lines 187-216). -/
structure FrozenData where
  chronicConsistent : List String
  chronicInconsistent : List String
  mediaChronics : List String

/-- The `existing_chronics` block of a monthly JSON snapshot. -/
structure ExistingChronics where
  chronicConsistent : List String
  chronicInconsistent : List String
  mediaChronics : List String

/-- The parts of a `chronic_summary_*.json` snapshot consulted by the
fallback scan of `load_baseline_status`: `chronic_data.existing_chronics` and
`chronic_data.new_chronics` (provider → circuit list, in insertion order). -/
structure SnapshotData where
  existingChronics : ExistingChronics
  newChronics : List (String × List String)

/-- Mutable state of `load_baseline_status` while reading the frozen legacy
list: `baseline_status`, `baseline_ids`, the current value of the loop
variable `canonical` (shared across the three loops), and whether a
`NameError` has aborted the load (reading `canonical` before any
assignment, possible in the media loop whose `baseline_ids.add(canonical)`
sits outside the test-circuit guard, line 210). -/
structure LoadState where
  statusMap : List (String × BStatus)
  knownIds : List String
  lastCanonical : Option String
  aborted : Bool

/-- One iteration of the frozen-list loops for `chronic_consistent` /
`chronic_inconsistent` (lines 194-204): skip test circuits, otherwise map
the canonical ID to the status and record it as known. -/
def statusStep (st : BStatus) (acc : LoadState) (circuit : String) : LoadState :=
  if startsWithPy circuit "CID_TEST" then acc
  else
    let c := canonicalIdStr circuit
    ⟨dinsert acc.statusMap c st, sinsert acc.knownIds c, some c, acc.aborted⟩

/-- One iteration of the frozen-list `media_chronics` loop (lines 206-210):
the `baseline_ids.add(canonical)` is outside the test-circuit guard, so a
test circuit re-adds the previous loop value of `canonical` — or raises
`NameError` when no previous value exists, which the outer handler catches,
returning the partial state. -/
def mediaStep (acc : LoadState) (circuit : String) : LoadState :=
  if acc.aborted then acc
  else if startsWithPy circuit "CID_TEST" then
    match acc.lastCanonical with
    | none => ⟨acc.statusMap, acc.knownIds, acc.lastCanonical, true⟩
    | some c => ⟨acc.statusMap, sinsert acc.knownIds c, acc.lastCanonical, false⟩
  else
    let c := canonicalIdStr circuit
    ⟨dinsert acc.statusMap c BStatus.mediaChronic, sinsert acc.knownIds c, some c, false⟩

/-- Frozen-legacy-list branch of `load_baseline_status`. -/
def loadFrozen (fd : FrozenData) : LoadState :=
  let s1 := fd.chronicConsistent.foldl (statusStep BStatus.consistent) ⟨[], [], none, false⟩
  let s2 := fd.chronicInconsistent.foldl (statusStep BStatus.inconsistent) s1
  fd.mediaChronics.foldl mediaStep s2

/-- Python `needle in haystack` on character lists: some suffix of the
haystack starts with the needle. -/
def containsSubstring : List Char → List Char → Bool
  | [], p => p.isEmpty
  | a :: t, p => p.isPrefixOf (a :: t) || containsSubstring t p

/-- Cutover filename test of the fallback scan (monthly_builder.py lines
231-234): the snapshot is May 2025 or an earlier 2025 month. -/
def isCutoverName (name : String) : Bool :=
  containsSubstring name.toList "May_2025".toList ||
  containsSubstring name.toList "January_2025".toList ||
  containsSubstring name.toList "February_2025".toList ||
  containsSubstring name.toList "March_2025".toList ||
  containsSubstring name.toList "April_2025".toList

/-- Result of `load_baseline_status`: `baseline_status`, `baseline_ids`, and
the `cutover_found` flag stored as `self.baseline_found`. -/
structure FallbackState where
  statusMap : List (String × BStatus)
  knownIds : List String
  cutoverFound : Bool

/-- Record one circuit under a status, keyed by canonical ID (no test-circuit
filter: the fallback scan has none). -/
def addWithStatus (st : BStatus) (acc : List (String × BStatus) × List String)
    (circuit : String) : List (String × BStatus) × List String :=
  (dinsert acc.1 (canonicalIdStr circuit) st, sinsert acc.2 (canonicalIdStr circuit))

/-- Circuits of the first provider entry of `chronic_data.new_chronics`: the
`break` at line 268 sits in the provider loop, so only the first provider's
circuits are marked pending promotion. -/
def firstProviderCircuits (sd : SnapshotData) : List String :=
  match sd.newChronics with
  | [] => []
  | (_, circuits) :: _ => circuits

/-- Processing of one snapshot file by the fallback scan (lines 226-271):
for a cutover-month file the `existing_chronics` lists are loaded with their
statuses (no test-circuit filter); then, for every file, the first provider's
new chronics are marked `pending_promotion`. -/
def fallbackFileStep (acc : FallbackState) (file : String × SnapshotData) :
    FallbackState :=
  let name := file.1
  let sd := file.2
  let acc1 :=
    if isCutoverName name then
      let p1 := sd.existingChronics.chronicConsistent.foldl
        (addWithStatus BStatus.consistent) (acc.statusMap, acc.knownIds)
      let p2 := sd.existingChronics.chronicInconsistent.foldl
        (addWithStatus BStatus.inconsistent) p1
      let p3 := sd.existingChronics.mediaChronics.foldl
        (addWithStatus BStatus.mediaChronic) p2
      FallbackState.mk p3.1 p3.2 true
    else acc
  let p := (firstProviderCircuits sd).foldl
    (addWithStatus BStatus.pendingPromotion) (acc1.statusMap, acc1.knownIds)
  FallbackState.mk p.1 p.2 acc1.cutoverFound

/-- Fallback scan over the sorted `chronic_summary_*.json` files (the loop
has no early exit over files: its `break` only leaves the provider loop). -/
def loadFallback (files : List (String × SnapshotData)) : FallbackState :=
  files.foldl fallbackFileStep ⟨[], [], false⟩

/-- `load_baseline_status`: prefer the frozen legacy list when the file
exists and parses (`none` models a missing or malformed file); the fallback
scan runs only when it does not, because a parsed frozen list sets
`cutover_found = True` and an aborting `NameError` skips the fallback too. -/
def loadBaselineStatus (frozen : Option FrozenData)
    (files : List (String × SnapshotData)) : FallbackState :=
  match frozen with
  | some fd =>
      let s := loadFrozen fd
      ⟨s.statusMap, s.knownIds, !s.aborted⟩
  | none => loadFallback files


theorem mem_sinsert (s : List String) (k k2 : String) :
    k2 ∈ sinsert s k ↔ k2 = k ∨ k2 ∈ s := by
  unfold sinsert
  by_cases h : k ∈ s
  · simp only [h, if_true]
    constructor
    · exact Or.inr
    · rintro (rfl | h2)
      · exact h
      · exact h2
  · simp only [h, if_false, List.mem_append, List.mem_singleton]
    tauto

theorem dlookup_map_overwrite (m : List (String × BStatus)) (k : String)
    (v : BStatus) (k2 : String) :
    dlookup k2 (m.map (fun p => if p.1 = k then (k, v) else p)) =
      if k2 = k then (if (dlookup k m).isSome then some v else none)
      else dlookup k2 m := by
  induction m with
  | nil => simp [dlookup]
  | cons p t ih =>
    obtain ⟨a, b⟩ := p
    by_cases h1 : a = k
    · subst h1
      have hh : (if (a, b).1 = a then (a, v) else (a, b)) = (a, v) := by simp
      rw [List.map_cons, hh]
      by_cases h2 : k2 = a
      · subst h2
        simp [dlookup]
      · simp only [dlookup, if_neg h2, ih]
    · have hh : (if (a, b).1 = k then (k, v) else (a, b)) = (a, b) := by simp [h1]
      rw [List.map_cons, hh]
      by_cases h2 : k2 = a
      · subst h2
        simp [dlookup, h1]
      · simp only [dlookup, if_neg h2, ih]
        simp [dlookup, h2, Ne.symm h1]

theorem dlookup_append_single (m : List (String × BStatus)) (k : String)
    (v : BStatus) (k2 : String) :
    dlookup k2 (m ++ [(k, v)]) =
      match dlookup k2 m with
      | some w => some w
      | none => if k2 = k then some v else none := by
  induction m with
  | nil =>
    by_cases h : k2 = k <;> simp [dlookup, h]
  | cons p t ih =>
    obtain ⟨a, b⟩ := p
    by_cases h : k2 = a <;> simp [dlookup, h, ih]

theorem dlookup_dinsert (m : List (String × BStatus)) (k : String) (v : BStatus)
    (k2 : String) :
    dlookup k2 (dinsert m k v) = if k2 = k then some v else dlookup k2 m := by
  unfold dinsert
  by_cases hp : (dlookup k m).isSome = true
  · simp only [hp, if_true]
    rw [dlookup_map_overwrite]
    simp [hp]
  · simp only [hp]
    rw [if_neg (by simp [hp])]
    rw [dlookup_append_single]
    by_cases h : k2 = k
    · subst h
      have : dlookup k2 m = none := by
        cases hh : dlookup k2 m
        · rfl
        · exact absurd (by simp [hh]) hp
      simp [this]
    · cases hh : dlookup k2 m <;> simp [h, hh]

/-- A canonical key derives from a non-test circuit of the frozen legacy
list. -/
def DerivedFrom (fd : FrozenData) (k : String) : Prop :=
  ∃ raw, (raw ∈ fd.chronicConsistent ∨ raw ∈ fd.chronicInconsistent ∨
      raw ∈ fd.mediaChronics) ∧
    startsWithPy raw "CID_TEST" = false ∧ canonicalIdStr raw = k

/-- Invariant of the frozen-list load: every mapped key, every known ID and
the loop variable `canonical` derive from a non-test input circuit. -/
def GoodState (fd : FrozenData) (s : LoadState) : Prop :=
  (∀ k, (dlookup k s.statusMap).isSome → DerivedFrom fd k) ∧
  (∀ k, k ∈ s.knownIds → DerivedFrom fd k) ∧
  (∀ c, s.lastCanonical = some c → DerivedFrom fd c)

theorem goodState_statusStep (fd : FrozenData) (st : BStatus) (acc : LoadState)
    (circuit : String)
    (hc : circuit ∈ fd.chronicConsistent ∨ circuit ∈ fd.chronicInconsistent ∨
      circuit ∈ fd.mediaChronics)
    (h : GoodState fd acc) : GoodState fd (statusStep st acc circuit) := by
  unfold statusStep
  by_cases ht : startsWithPy circuit "CID_TEST" = true
  · simpa [ht] using h
  · have htf : startsWithPy circuit "CID_TEST" = false := by
      cases hv : startsWithPy circuit "CID_TEST"
      · rfl
      · exact absurd hv ht
    have hder : DerivedFrom fd (canonicalIdStr circuit) := ⟨circuit, hc, htf, rfl⟩
    simp only [htf, Bool.false_eq_true, if_false]
    refine ⟨?_, ?_, ?_⟩
    · intro k hk
      rw [dlookup_dinsert] at hk
      by_cases hk2 : k = canonicalIdStr circuit
      · exact hk2 ▸ hder
      · rw [if_neg hk2] at hk
        exact h.1 k hk
    · intro k hk
      rw [mem_sinsert] at hk
      rcases hk with rfl | hk
      · exact hder
      · exact h.2.1 k hk
    · intro c hcc
      cases hcc
      exact hder

theorem goodState_mediaStep (fd : FrozenData) (acc : LoadState) (circuit : String)
    (hc : circuit ∈ fd.chronicConsistent ∨ circuit ∈ fd.chronicInconsistent ∨
      circuit ∈ fd.mediaChronics)
    (h : GoodState fd acc) : GoodState fd (mediaStep acc circuit) := by
  unfold mediaStep
  by_cases ha : acc.aborted = true
  · simpa [ha] using h
  · have haf : acc.aborted = false := by
      cases hv : acc.aborted
      · rfl
      · exact absurd hv ha
    by_cases ht : startsWithPy circuit "CID_TEST" = true
    · simp only [haf, Bool.false_eq_true, if_false, ht, if_true]
      cases hl : acc.lastCanonical with
      | none => exact ⟨h.1, h.2.1, by simp⟩
      | some c =>
        refine ⟨h.1, ?_, ?_⟩
        · intro k hk
          rw [mem_sinsert] at hk
          rcases hk with rfl | hk
          · exact h.2.2 k hl
          · exact h.2.1 k hk
        · intro c2 hc2
          exact h.2.2 c2 (hl ▸ hc2)
    · have htf : startsWithPy circuit "CID_TEST" = false := by
        cases hv : startsWithPy circuit "CID_TEST"
        · rfl
        · exact absurd hv ht
      have hder : DerivedFrom fd (canonicalIdStr circuit) := ⟨circuit, hc, htf, rfl⟩
      simp only [haf, htf, Bool.false_eq_true, if_false]
      refine ⟨?_, ?_, ?_⟩
      · intro k hk
        rw [dlookup_dinsert] at hk
        by_cases hk2 : k = canonicalIdStr circuit
        · exact hk2 ▸ hder
        · rw [if_neg hk2] at hk
          exact h.1 k hk
      · intro k hk
        rw [mem_sinsert] at hk
        rcases hk with rfl | hk
        · exact hder
        · exact h.2.1 k hk
      · intro c hcc
        cases hcc
        exact hder

theorem goodState_foldl_statusStep (fd : FrozenData) (st : BStatus)
    (L : List String)
    (hL : ∀ x ∈ L, x ∈ fd.chronicConsistent ∨ x ∈ fd.chronicInconsistent ∨
      x ∈ fd.mediaChronics) :
    ∀ acc, GoodState fd acc → GoodState fd (L.foldl (statusStep st) acc) := by
  induction L with
  | nil => intro acc h; exact h
  | cons a t ih =>
    intro acc h
    rw [List.foldl_cons]
    exact ih (fun x hx => hL x (List.mem_cons_of_mem a hx))
      (statusStep st acc a) (goodState_statusStep fd st acc a (hL a (List.mem_cons_self a t)) h)

theorem goodState_foldl_mediaStep (fd : FrozenData) (L : List String)
    (hL : ∀ x ∈ L, x ∈ fd.chronicConsistent ∨ x ∈ fd.chronicInconsistent ∨
      x ∈ fd.mediaChronics) :
    ∀ acc, GoodState fd acc → GoodState fd (L.foldl mediaStep acc) := by
  induction L with
  | nil => intro acc h; exact h
  | cons a t ih =>
    intro acc h
    rw [List.foldl_cons]
    exact ih (fun x hx => hL x (List.mem_cons_of_mem a hx))
      (mediaStep acc a) (goodState_mediaStep fd acc a (hL a (List.mem_cons_self a t)) h)

theorem goodState_loadFrozen (fd : FrozenData) : GoodState fd (loadFrozen fd) := by
  unfold loadFrozen
  have h0 : GoodState fd ⟨[], [], none, false⟩ := by
    refine ⟨?_, ?_, ?_⟩ <;> intro k hk <;> simp [dlookup] at hk
  exact goodState_foldl_mediaStep fd fd.mediaChronics
    (fun x hx => Or.inr (Or.inr hx)) _
    (goodState_foldl_statusStep fd BStatus.inconsistent fd.chronicInconsistent
      (fun x hx => Or.inr (Or.inl hx)) _
      (goodState_foldl_statusStep fd BStatus.consistent fd.chronicConsistent
        (fun x hx => Or.inl hx) ⟨[], [], none, false⟩ h0))

/-- C7 (amended): on the frozen-legacy-list path of `load_baseline_status`,
every entry of the returned status mapping and every member of the returned
known-ID set derives from a non-test input circuit, so nothing derives from a
circuit whose raw identifier starts with `CID_TEST`; the fallback JSON-scan
path applies no such filter. -/
theorem frozen_baseline_excludes_test_circuits (fd : FrozenData)
    (files : List (String × SnapshotData)) (k : String)
    (h : (dlookup k (loadBaselineStatus (some fd) files).statusMap).isSome ∨
      k ∈ (loadBaselineStatus (some fd) files).knownIds) :
    ∃ raw, (raw ∈ fd.chronicConsistent ∨ raw ∈ fd.chronicInconsistent ∨
        raw ∈ fd.mediaChronics) ∧
      startsWithPy raw "CID_TEST" = false ∧ canonicalIdStr raw = k := by
  have hg := goodState_loadFrozen fd
  rcases h with h | h
  · exact hg.1 k h
  · exact hg.2.1 k h

/-- Witness for C7 (amended): a frozen list with one real circuit and one
test media circuit yields a mapping whose single key derives from the real
circuit. -/
theorem frozen_baseline_excludes_test_circuits_witness :
    (dlookup "SR216187"
      (loadBaselineStatus (some ⟨["SR216187"], [], ["CID_TEST_X"]⟩) []).statusMap).isSome ∧
    (∃ raw, (raw ∈ (["SR216187"] : List String) ∨ raw ∈ ([] : List String) ∨
        raw ∈ (["CID_TEST_X"] : List String)) ∧
      startsWithPy raw "CID_TEST" = false ∧ canonicalIdStr raw = "SR216187") :=
  ⟨by decide,
   frozen_baseline_excludes_test_circuits ⟨["SR216187"], [], ["CID_TEST_X"]⟩ []
     "SR216187" (Or.inl (by decide))⟩

/-- Snapshot whose only circuit is a test circuit. -/
def c7Snapshot : SnapshotData :=
  ⟨⟨["CID_TEST_1"], [], []⟩, []⟩

/-- Counterexample to C7 as stated: on the fallback JSON-scan path a test
circuit is not filtered — a May 2025 snapshot whose only listed circuit is
`CID_TEST_1` produces a baseline entry and a known ID derived from it. -/
theorem fallback_scan_keeps_test_circuits :
    startsWithPy "CID_TEST_1" "CID_TEST" = true ∧
    (loadBaselineStatus none
      [("chronic_summary_May_2025.json", c7Snapshot)]).statusMap =
      [(canonicalIdStr "CID_TEST_1", BStatus.consistent)] ∧
    (loadBaselineStatus none
      [("chronic_summary_May_2025.json", c7Snapshot)]).knownIds =
      [canonicalIdStr "CID_TEST_1"] := by
  decide


theorem dlookup_foldl_addWithStatus (st : BStatus) (L : List String) :
    ∀ (p : List (String × BStatus) × List String) (k : String),
      dlookup k (L.foldl (addWithStatus st) p).1 =
        if k ∈ L.map canonicalIdStr then some st else dlookup k p.1 := by
  induction L with
  | nil => intro p k; simp
  | cons a t ih =>
    intro p k
    rw [List.foldl_cons, ih]
    by_cases h1 : k ∈ t.map canonicalIdStr
    · simp [h1, List.map_cons, List.mem_cons]
    · rw [if_neg h1]
      unfold addWithStatus
      rw [dlookup_dinsert]
      by_cases h2 : k = canonicalIdStr a
      · simp [h2, List.map_cons, List.mem_cons]
      · simp [h2, h1, List.map_cons, List.mem_cons]

theorem dlookup_loadFallback_single (name : String) (sd : SnapshotData)
    (k : String) (hcut : isCutoverName name = true) :
    dlookup k (loadFallback [(name, sd)]).statusMap =
      if k ∈ (firstProviderCircuits sd).map canonicalIdStr then
        some BStatus.pendingPromotion
      else if k ∈ sd.existingChronics.mediaChronics.map canonicalIdStr then
        some BStatus.mediaChronic
      else if k ∈ sd.existingChronics.chronicInconsistent.map canonicalIdStr then
        some BStatus.inconsistent
      else if k ∈ sd.existingChronics.chronicConsistent.map canonicalIdStr then
        some BStatus.consistent
      else none := by
  unfold loadFallback
  rw [List.foldl_cons, List.foldl_nil]
  unfold fallbackFileStep
  simp only [hcut, if_true]
  rw [dlookup_foldl_addWithStatus, dlookup_foldl_addWithStatus,
    dlookup_foldl_addWithStatus, dlookup_foldl_addWithStatus]
  simp [dlookup]

/-- C8 (amended): the snapshot written this period, loaded next period by the
fallback scan of `load_baseline_status`, reproduces the frozen statuses of the
previously classified circuits only when the snapshot filename names a
cutover month (January-May 2025); for such a file, a circuit of a status list
whose canonical ID is not overwritten by a later-processed list maps to its
written status. -/
theorem snapshot_roundtrip_for_cutover_months (monthStr : String)
    (sd : SnapshotData) (c : String)
    (hcut : isCutoverName ("chronic_summary_" ++ monthStr ++ ".json") = true) :
    (c ∈ sd.existingChronics.chronicConsistent →
      canonicalIdStr c ∉ sd.existingChronics.chronicInconsistent.map canonicalIdStr →
      canonicalIdStr c ∉ sd.existingChronics.mediaChronics.map canonicalIdStr →
      canonicalIdStr c ∉ (firstProviderCircuits sd).map canonicalIdStr →
      dlookup (canonicalIdStr c)
        (loadBaselineStatus none
          [("chronic_summary_" ++ monthStr ++ ".json", sd)]).statusMap =
        some BStatus.consistent) ∧
    (c ∈ sd.existingChronics.chronicInconsistent →
      canonicalIdStr c ∉ sd.existingChronics.mediaChronics.map canonicalIdStr →
      canonicalIdStr c ∉ (firstProviderCircuits sd).map canonicalIdStr →
      dlookup (canonicalIdStr c)
        (loadBaselineStatus none
          [("chronic_summary_" ++ monthStr ++ ".json", sd)]).statusMap =
        some BStatus.inconsistent) ∧
    (c ∈ sd.existingChronics.mediaChronics →
      canonicalIdStr c ∉ (firstProviderCircuits sd).map canonicalIdStr →
      dlookup (canonicalIdStr c)
        (loadBaselineStatus none
          [("chronic_summary_" ++ monthStr ++ ".json", sd)]).statusMap =
        some BStatus.mediaChronic) := by
  have hload : loadBaselineStatus none
      [("chronic_summary_" ++ monthStr ++ ".json", sd)] =
      loadFallback [("chronic_summary_" ++ monthStr ++ ".json", sd)] := rfl
  refine ⟨?_, ?_, ?_⟩
  · intro hc h1 h2 h3
    rw [hload, dlookup_loadFallback_single _ _ _ hcut]
    simp [h1, h2, h3, List.mem_map_of_mem canonicalIdStr hc]
  · intro hc h2 h3
    rw [hload, dlookup_loadFallback_single _ _ _ hcut]
    simp [h2, h3, List.mem_map_of_mem canonicalIdStr hc]
  · intro hc h3
    rw [hload, dlookup_loadFallback_single _ _ _ hcut]
    simp [h3, List.mem_map_of_mem canonicalIdStr hc]

/-- Snapshot data for the C8 witness: one circuit of each frozen status and
one new chronic provider group. -/
def c8WitnessSnapshot : SnapshotData :=
  ⟨⟨["SR216187"], ["LD017936"], ["VID-1583"]⟩, [("Telstra", ["N2864477L"])]⟩

/-- Witness for C8 (amended): a May 2025 snapshot reproduces Consistent,
Inconsistent and Media Chronic for its three circuits. -/
theorem snapshot_roundtrip_for_cutover_months_witness :
    dlookup (canonicalIdStr "SR216187")
      (loadBaselineStatus none
        [("chronic_summary_" ++ "May_2025" ++ ".json", c8WitnessSnapshot)]).statusMap =
      some BStatus.consistent ∧
    dlookup (canonicalIdStr "LD017936")
      (loadBaselineStatus none
        [("chronic_summary_" ++ "May_2025" ++ ".json", c8WitnessSnapshot)]).statusMap =
      some BStatus.inconsistent ∧
    dlookup (canonicalIdStr "VID-1583")
      (loadBaselineStatus none
        [("chronic_summary_" ++ "May_2025" ++ ".json", c8WitnessSnapshot)]).statusMap =
      some BStatus.mediaChronic :=
  ⟨(snapshot_roundtrip_for_cutover_months "May_2025" c8WitnessSnapshot "SR216187"
      (by decide)).1 (by decide) (by decide) (by decide) (by decide),
   (snapshot_roundtrip_for_cutover_months "May_2025" c8WitnessSnapshot "LD017936"
      (by decide)).2.1 (by decide) (by decide) (by decide),
   (snapshot_roundtrip_for_cutover_months "May_2025" c8WitnessSnapshot "VID-1583"
      (by decide)).2.2 (by decide) (by decide)⟩

/-- Snapshot for the C8 counterexample: one Consistent circuit. -/
def c8Snapshot : SnapshotData :=
  ⟨⟨["X500"], [], []⟩, []⟩

/-- Counterexample to C8 as stated: a June 2025 snapshot (not a cutover
month) does not reproduce its Consistent circuit on reload — the baseline
has no entry for it at all. -/
theorem noncutover_snapshot_loses_frozen_statuses :
    "X500" ∈ c8Snapshot.existingChronics.chronicConsistent ∧
    isCutoverName "chronic_summary_June_2025.json" = false ∧
    dlookup (canonicalIdStr "X500")
      (loadBaselineStatus none
        [("chronic_summary_June_2025.json", c8Snapshot)]).statusMap = none := by
  decide


theorem mem_of_mem_takeWhile {p : Char → Bool} {l : List Char} {c : Char}
    (h : c ∈ l.takeWhile p) : c ∈ l := by
  induction l with
  | nil => simp at h
  | cons a t ih =>
    rw [List.takeWhile_cons] at h
    by_cases hp : p a = true
    · rw [if_pos hp, List.mem_cons] at h
      rcases h with rfl | h
      · exact List.mem_cons_self _ _
      · exact List.mem_cons_of_mem a (ih h)
    · rw [if_neg hp] at h
      simp at h

theorem mem_of_mem_dropWhile {p : Char → Bool} {l : List Char} {c : Char}
    (h : c ∈ l.dropWhile p) : c ∈ l := by
  induction l with
  | nil => simp at h
  | cons a t ih =>
    rw [List.dropWhile_cons] at h
    by_cases hp : p a = true
    · rw [if_pos hp] at h
      exact List.mem_cons_of_mem a (ih h)
    · rw [if_neg hp] at h
      exact h

theorem mem_of_mem_pyStrip {l : List Char} {c : Char} (h : c ∈ pyStrip l) :
    c ∈ l := by
  unfold pyStrip at h
  rw [List.mem_reverse] at h
  have h2 := mem_of_mem_dropWhile h
  rw [List.mem_reverse] at h2
  exact mem_of_mem_dropWhile h2

theorem mem_of_mem_splitFirst {d : Char} {l : List Char} {c : Char}
    (h : c ∈ splitFirst d l) : c ∈ l :=
  mem_of_mem_takeWhile h

theorem ne_of_mem_splitFirst {d : Char} {l : List Char} {c : Char}
    (h : c ∈ splitFirst d l) : ¬c = d := by
  have := List.mem_takeWhile_imp h
  simpa using this

theorem mem_of_mem_regexTrim {l : List Char} {c : Char} (h : c ∈ regexTrim l) :
    c ∈ l := by
  unfold regexTrim at h
  by_cases hm : matchesPat l = true
  · rw [if_pos hm] at h
    exact mem_of_mem_splitFirst h
  · rw [if_neg hm] at h
    exact h

theorem mem_of_mem_canonCore {l : List Char} {c : Char} (h : c ∈ canonCore l) :
    c ∈ l := by
  unfold canonCore at h
  exact mem_of_mem_pyStrip
    (mem_of_mem_splitFirst (mem_of_mem_splitFirst (mem_of_mem_splitFirst
      (mem_of_mem_regexTrim h))))

theorem dropWhile_eq_self_of {p : Char → Bool} {l : List Char}
    (h : ∀ c ∈ l, p c = false) : l.dropWhile p = l := by
  cases l with
  | nil => rfl
  | cons a t =>
    rw [List.dropWhile_cons, if_neg]
    simp [h a (List.mem_cons_self a t)]

theorem pyStrip_eq_self {l : List Char} (h : ∀ c ∈ l, isPySpace c = false) :
    pyStrip l = l := by
  unfold pyStrip
  rw [dropWhile_eq_self_of h]
  rw [dropWhile_eq_self_of (fun c hc => h c (List.mem_reverse.mp hc))]
  exact List.reverse_reverse l

theorem splitFirst_eq_self_of {d : Char} {l : List Char}
    (h : ∀ c ∈ l, ¬c = d) : splitFirst d l = l := by
  unfold splitFirst
  rw [List.takeWhile_eq_self_iff]
  intro c hc
  simp [h c hc]

theorem hyphen_mem_of_matchesCore {l : List Char} (h : matchesCore l = true) :
    ('-' : Char) ∈ l := by
  unfold matchesCore at h
  simp only [Bool.and_eq_true, beq_iff_eq] at h
  have h2 := h.1.1.2
  have h3 : ('-' : Char) ∈ l.reverse.dropWhile Char.isAlpha := by
    cases hl : l.reverse.dropWhile Char.isAlpha with
    | nil => rw [hl] at h2; simp at h2
    | cons a t =>
      rw [hl] at h2
      simp only [List.head?_cons, Option.some.injEq] at h2
      rw [h2]
      exact List.mem_cons_self _ _
  exact List.mem_reverse.mp (mem_of_mem_dropWhile h3)

theorem newline_mem_of_getLast {l : List Char}
    (h : l.getLast? = some '\n') : ('\n' : Char) ∈ l := by
  have h2 : ('\n' : Char) ∈ l.getLast? := h
  rcases List.mem_getLast?_eq_getLast h2 with ⟨hne, heq⟩
  rw [heq]
  exact List.getLast_mem hne

theorem matchesPat_eq_false_of {l : List Char} (hh : ('-' : Char) ∉ l)
    (hn : ('\n' : Char) ∉ l) : matchesPat l = false := by
  unfold matchesPat
  have h1 : matchesCore l = false := by
    cases hv : matchesCore l
    · rfl
    · exact absurd (hyphen_mem_of_matchesCore hv) hh
  rw [h1]
  have h2 : (l.getLast? == some '\n') = false := by
    cases hv : l.getLast? == some '\n'
    · rfl
    · exact absurd (newline_mem_of_getLast (by simpa using hv)) hn
  simp [h2]

theorem canonCore_eq_self {r : List Char}
    (hws : ∀ c ∈ r, isPySpace c = false)
    (hd1 : ∀ c ∈ r, ¬c = '_') (hd2 : ∀ c ∈ r, ¬c = '/')
    (hpat : matchesPat r = false) :
    canonCore r = r := by
  have hd3 : ∀ c ∈ r, ¬c = ' ' := by
    intro c hc he
    have := hws c hc
    rw [he] at this
    simp [isPySpace] at this
  unfold canonCore
  rw [pyStrip_eq_self hws, splitFirst_eq_self_of hd1, splitFirst_eq_self_of hd2,
    splitFirst_eq_self_of hd3]
  unfold regexTrim
  rw [hpat]
  simp

/-- Sequential splitting at `_`, then `/`, then space equals taking the
prefix before the first occurrence of any of the three delimiters. -/
theorem truncAll_eq (l : List Char) :
    splitFirst ' ' (splitFirst '/' (splitFirst '_' l)) =
      l.takeWhile (fun c => !(c == '_') && !(c == '/') && !(c == ' ')) := by
  induction l with
  | nil => rfl
  | cons a t ih =>
    unfold splitFirst at ih ⊢
    by_cases h1 : a = '_'
    · simp [List.takeWhile_cons, h1]
    · by_cases h2 : a = '/'
      · simp [List.takeWhile_cons, h1, h2]
      · by_cases h3 : a = ' '
        · simp [List.takeWhile_cons, h1, h2, h3]
        · simp [List.takeWhile_cons, h1, h2, h3, ih]


theorem canonCore_idem (l : List Char)
    (h : ∀ c ∈ l, isPySpace c = true → c = ' ') :
    canonCore (canonCore l) = canonCore l := by
  have hform : canonCore l =
      regexTrim ((pyStrip l).takeWhile
        (fun c => !(c == '_') && !(c == '/') && !(c == ' '))) := by
    unfold canonCore
    rw [truncAll_eq]
  have hd : ∀ c ∈ canonCore l, ¬c = '_' ∧ ¬c = '/' ∧ ¬c = ' ' := by
    intro c hc
    rw [hform] at hc
    have := List.mem_takeWhile_imp (mem_of_mem_regexTrim hc)
    simp at this
    exact ⟨this.1.1, this.1.2, this.2⟩
  have hws : ∀ c ∈ canonCore l, isPySpace c = false := by
    intro c hc
    cases hv : isPySpace c
    · rfl
    · exact absurd (h c (mem_of_mem_canonCore hc) hv) (hd c hc).2.2
  have hpat : matchesPat (canonCore l) = false := by
    rw [hform]
    unfold regexTrim
    by_cases hm : matchesPat ((pyStrip l).takeWhile
        (fun c => !(c == '_') && !(c == '/') && !(c == ' '))) = true
    · rw [if_pos hm]
      apply matchesPat_eq_false_of
      · intro hmem
        exact ne_of_mem_splitFirst hmem rfl
      · intro hmem
        have hin : ('\n' : Char) ∈ canonCore l := by
          rw [hform]
          unfold regexTrim
          rw [if_pos hm]
          exact hmem
        have := hws _ hin
        simp [isPySpace] at this
    · rw [if_neg hm]
      cases hv : matchesPat ((pyStrip l).takeWhile
          (fun c => !(c == '_') && !(c == '/') && !(c == ' ')))
      · rfl
      · exact absurd hv hm
  exact canonCore_eq_self hws (fun c hc => (hd c hc).1) (fun c hc => (hd c hc).2.1) hpat

/-- C3 (amended): `canonical_id` first strips surrounding whitespace; on the
stripped string, sequential splitting at `_`, `/` and space equals truncation
at the first occurrence of any of the three delimiters, followed by the
digits-hyphen-letters trim; the claim's examples hold, and empty or `None`
input yields the empty string. -/
theorem canonical_id_truncation_rule_amended :
    (∀ l : List Char,
      canonCore l =
        regexTrim ((pyStrip l).takeWhile
          (fun c => !(c == '_') && !(c == '/') && !(c == ' ')))) ∧
    canonicalIdStr "123-A_456" = "123" ∧
    canonicalIdStr "VID-1583" = "VID-1583" ∧
    canonicalId none = "" ∧ canonicalIdStr "" = "" := by
  refine ⟨?_, by decide, by decide, by decide, by decide⟩
  intro l
  unfold canonCore
  rw [truncAll_eq]

/-- Regex test of the claim's words (C3): the remainder ends in three or more
digits followed by a hyphen and letters. -/
def claimTailPat (l : List Char) : Bool :=
  !(l.reverse.takeWhile Char.isAlpha).isEmpty &&
    (l.reverse.dropWhile Char.isAlpha).head? == some '-' &&
    decide (3 ≤
      (((l.reverse.dropWhile Char.isAlpha).drop 1).takeWhile Char.isDigit).length)

/-- Modelled from the claim's words (C3), for comparison with the source
function: truncate the input at the first occurrence of `_`, `/` or space,
then, if the remainder ends in three-or-more digits followed by a hyphen and
letters, truncate again at the hyphen; empty or `None` input yields the empty
string.  The claim mentions no whitespace stripping. -/
def canonicalIdClaimC3 : Option String → String
  | none => ""
  | some raw =>
      String.mk
        (if claimTailPat (raw.toList.takeWhile
            (fun c => !(c == '_') && !(c == '/') && !(c == ' '))) then
          splitFirst '-' (raw.toList.takeWhile
            (fun c => !(c == '_') && !(c == '/') && !(c == ' ')))
        else
          raw.toList.takeWhile (fun c => !(c == '_') && !(c == '/') && !(c == ' ')))

/-- Counterexample to C3 as stated: the source function strips surrounding
whitespace before truncating, which the claim's rule does not — on `" a"`
the code yields `"a"` while the claim's rule yields `""`. -/
theorem canonical_id_strips_whitespace_first :
    canonicalIdStr " a" = "a" ∧
    canonicalIdClaimC3 (some " a") = "" ∧
    canonicalIdStr " a" ≠ canonicalIdClaimC3 (some " a") := by
  decide

/-- Counterexample to C10 as stated: `canonical_id` is not idempotent — a tab
left trailing by the space-truncation is stripped only by the second
application: `canonical_id("a\t b") = "a\t"` but `canonical_id("a\t") =
"a"`. -/
theorem canonical_id_not_idempotent_on_tab :
    canonicalIdStr "a\t b" = "a\t" ∧
    canonicalIdStr (canonicalIdStr "a\t b") = "a" ∧
    canonicalIdStr (canonicalIdStr "a\t b") ≠ canonicalIdStr "a\t b" := by
  decide

/-- C10 (amended): `canonical_id` is idempotent on every string whose
whitespace characters are all plain spaces (in particular on all
whitespace-free identifiers); only a non-space whitespace character left
trailing by truncation can break idempotence. -/
theorem canonical_id_idempotent_amended (s : String)
    (h : ∀ c ∈ s.toList, isPySpace c = true → c = ' ') :
    canonicalIdStr (canonicalIdStr s) = canonicalIdStr s := by
  have heq : ∀ t : String,
      canonicalIdStr t = if t = "" then "" else String.mk (canonCore t.toList) :=
    fun t => rfl
  rw [heq, heq]
  by_cases hs : s = ""
  · rw [if_pos hs]
    simp
  · rw [if_neg hs]
    by_cases hre : String.mk (canonCore s.toList) = ""
    · rw [if_pos hre]
      exact hre.symm
    · rw [if_neg hre]
      have htl : (String.mk (canonCore s.toList)).toList = canonCore s.toList := rfl
      rw [htl, canonCore_idem s.toList h]

/-- Witness for C10 (amended): a whitespace-free identifier normalizes to a
fixed point. -/
theorem canonical_id_idempotent_amended_witness :
    (∀ c ∈ ("123-A_456" : String).toList, isPySpace c = true → c = ' ') ∧
    canonicalIdStr (canonicalIdStr "123-A_456") = canonicalIdStr "123-A_456" :=
  ⟨by decide, canonical_id_idempotent_amended "123-A_456" (by decide)⟩


end Reporting
